import Mathlib

/-!
Verification of the survival-analysis dashboard (src/app.py).

The script loads a CSV of kidney-transplant records, derives time-to-event
columns, fits Kaplan-Meier curves per transplant year and globally, queries
survival at fixed horizons, and runs log-rank tests.  Dates are embedded as
integer day numbers (pandas Timestamps at day resolution), missing dates
(NaT) as `none`.  The Kaplan-Meier estimator and the log-rank statistic are
delegated by the script to the lifelines library, whose source is not part
of the repository; those algorithms are modelled from the specification
(sections 4.2 and 4.4) and each such definition is marked
`Modelled from the spec:`.
-/

/-- A raw subject row of the CSV after date parsing (src/app.py lines 22-24):
three optional date fields, each an integer day number or `none` for NaT. -/
structure Row where
  data_tx    : Option Int
  data_obito : Option Int
  data_pe    : Option Int
deriving Repr, DecidableEq

/-- Column `evento_obito` (line 30): 1 exactly when `data_obito` is non-null;
embedded as the corresponding boolean. -/
def evento_obito (r : Row) : Bool := r.data_obito.isSome

/-- Column `tempo_obito` (line 31): `(data_obito.fillna(data_censura) - data_tx).dt.days`.
Subtraction against a NaT `data_tx` propagates NaT, hence the `Option`. -/
def tempo_obito (censura : Int) (r : Row) : Option Int :=
  r.data_tx.map (fun tx => r.data_obito.getD censura - tx)

/-- Column `evento_pe` (line 33). -/
def evento_pe (r : Row) : Bool := r.data_pe.isSome

/-- Column `tempo_pe` (line 34). -/
def tempo_pe (censura : Int) (r : Row) : Option Int :=
  r.data_tx.map (fun tx => r.data_pe.getD censura - tx)

/-- The two time-to-event tuples derived for every row of the dataframe
(lines 30-34), both from the single `data_censura` computed once at line 27. -/
def buildTuples (censura : Int) (df : List Row) :
    List ((Option Int × Bool) × (Option Int × Bool)) :=
  df.map (fun r => ((tempo_obito censura r, evento_obito r),
                    (tempo_pe censura r, evento_pe r)))

/-- The column pair handed to `kmf.fit` for the death endpoint (lines 81 and
118): the derived columns, with no filtering or validity check in between. -/
def fitInput_obito (censura : Int) (df : List Row) : List (Option Int × Bool) :=
  df.map (fun r => (tempo_obito censura r, evento_obito r))

/-- Column `ano_tx` (line 26): the year of `data_tx`; the calendar map from a
day number to its year is abstracted as the function argument. -/
def ano_tx (yearOf : Int → Int) (r : Row) : Option Int :=
  r.data_tx.map yearOf

/-! ## Kaplan-Meier estimator, modelled from the spec (section 4.2) -/

/-- A time-to-event tuple: duration in days and event indicator. -/
abbrev TE := Int × Bool

/-- Modelled from the spec: the at-risk count at time t, the number of
subjects with duration at or above t (lifelines KaplanMeierFitter internals
are not in the repository). -/
def atRisk (data : List TE) (t : Int) : Nat :=
  (data.filter (fun p => decide (t ≤ p.1))).length

/-- Modelled from the spec: the number of events observed exactly at time t. -/
def eventsAt (data : List TE) (t : Int) : Nat :=
  (data.filter (fun p => decide (p.1 = t) && p.2)).length

/-- Modelled from the spec: the distinct event times, sorted ascending. -/
def eventTimes (data : List TE) : List Int :=
  List.insertionSort (fun a b => a ≤ b)
    (((data.filter (fun p => p.2)).map Prod.fst).dedup)

/-- Modelled from the spec: the Kaplan-Meier factor 1 - d/n contributed at an
event time (rational division, with d/0 = 0 when nobody is at risk). -/
def kmFactor (data : List TE) (t : Int) : ℚ :=
  1 - (eventsAt data t : ℚ) / (atRisk data t : ℚ)

/-- Modelled from the spec: the product of Kaplan-Meier factors over a list of
event times, S = prod (1 - d_i/n_i) with S(0) = 1 the empty product. -/
def survThrough (data : List TE) (ts : List Int) : ℚ :=
  (ts.map (kmFactor data)).prod

/-- Modelled from the spec: the Kaplan-Meier survival estimate at time t,
the product of factors over all event times at or before t. -/
def kmSurv (data : List TE) (t : Int) : ℚ :=
  survThrough data ((eventTimes data).filter (fun u => decide (u ≤ t)))

/-- Modelled from the spec: the curve as an ordered sequence of
(time, survival estimate) points, starting at survival 1 at time 0. -/
def kmCurve (data : List TE) : List (Int × ℚ) :=
  (0, 1) :: (eventTimes data).map (fun t => (t, kmSurv data t))

/-- The four-subject worked example of the spec (section 8). -/
def exampleData : List TE := [(10, true), (20, false), (20, true), (30, false)]

/-- Claim C1, counterexample: the spec asserts a survival estimate of 0.375 at
time 20 for the worked example, but with the at-risk set at time 20 still
containing the subject censored at 20 (the convention the spec itself states,
and the standard one the delegate library follows) the estimate at 20 is
0.75 * (1 - 1/3) = 0.5, not 0.375. -/
theorem km_example_S20_ne : kmSurv exampleData 20 = 1/2 ∧ ¬ kmSurv exampleData 20 = 3/8 := by
  norm_num [kmSurv, survThrough, eventTimes, kmFactor, eventsAt, atRisk, exampleData,
    List.insertionSort, List.orderedInsert, List.dedup, List.pwFilter]

/-- Claim C1 (amended): for the worked example the curve has survival 0.75 at
time 10 and 0.5 at time 20, stays constant at 0.5 through time 30, and the
censoring at 30 adds no step (the step times are exactly 10 and 20). -/
theorem km_example_values :
    kmSurv exampleData 10 = 3/4 ∧ kmSurv exampleData 20 = 1/2 ∧
    kmSurv exampleData 30 = 1/2 ∧ eventTimes exampleData = [10, 20] := by
  norm_num [kmSurv, survThrough, eventTimes, kmFactor, eventsAt, atRisk, exampleData,
    List.insertionSort, List.orderedInsert, List.dedup, List.pwFilter]

/-! ## Claim C2: the curve starts at survival 1 and is non-increasing -/

theorem eventsAt_le_atRisk (data : List TE) (t : Int) : eventsAt data t ≤ atRisk data t := by
  apply List.Sublist.length_le
  apply List.monotone_filter_right
  intro p hp
  simp only [Bool.and_eq_true, decide_eq_true_eq] at hp
  simp [hp.1]

theorem kmFactor_nonneg (data : List TE) (t : Int) : 0 ≤ kmFactor data t := by
  unfold kmFactor
  rcases Nat.eq_zero_or_pos (atRisk data t) with h | h
  · have hd : eventsAt data t = 0 := Nat.le_zero.mp (h ▸ eventsAt_le_atRisk data t)
    simp [h, hd]
  · have hn : (0:ℚ) < (atRisk data t : ℚ) := by exact_mod_cast h
    have hle : (eventsAt data t : ℚ) / (atRisk data t : ℚ) ≤ 1 := by
      rw [div_le_one hn]
      exact_mod_cast eventsAt_le_atRisk data t
    linarith

theorem kmFactor_le_one (data : List TE) (t : Int) : kmFactor data t ≤ 1 := by
  unfold kmFactor
  have hq : (0:ℚ) ≤ (eventsAt data t : ℚ) / (atRisk data t : ℚ) :=
    div_nonneg (Nat.cast_nonneg _) (Nat.cast_nonneg _)
  linarith

theorem prod_le_prod_of_sublist {L1 L2 : List ℚ} (h : List.Sublist L1 L2)
    (hb : ∀ x ∈ L2, 0 ≤ x ∧ x ≤ 1) : L2.prod ≤ L1.prod := by
  induction h with
  | slnil => exact le_refl _
  | @cons l1 l2 a h ih =>
      have h0 : ∀ x ∈ l2, 0 ≤ x ∧ x ≤ 1 := fun x hx => hb x (List.mem_cons_of_mem a hx)
      have hprod : (0:ℚ) ≤ l2.prod := List.prod_nonneg (fun x hx => (h0 x hx).1)
      calc (a :: l2).prod = a * l2.prod := List.prod_cons
        _ ≤ 1 * l2.prod :=
            mul_le_mul_of_nonneg_right (hb a (List.mem_cons_self a l2)).2 hprod
        _ = l2.prod := one_mul _
        _ ≤ l1.prod := ih h0
  | @cons₂ l1 l2 a h ih =>
      have h0 : ∀ x ∈ l2, 0 ≤ x ∧ x ≤ 1 := fun x hx => hb x (List.mem_cons_of_mem a hx)
      rw [List.prod_cons, List.prod_cons]
      exact mul_le_mul_of_nonneg_left (ih h0) (hb a (List.mem_cons_self a l2)).1

theorem survThrough_sublist_le (data : List TE) {ts1 ts2 : List Int} (h : List.Sublist ts1 ts2) :
    survThrough data ts2 ≤ survThrough data ts1 := by
  unfold survThrough
  apply prod_le_prod_of_sublist (h.map (kmFactor data))
  intro x hx
  rcases List.mem_map.mp hx with ⟨t, _, rfl⟩
  exact ⟨kmFactor_nonneg data t, kmFactor_le_one data t⟩

theorem kmSurv_le_one (data : List TE) (t : Int) : kmSurv data t ≤ 1 := by
  have h := survThrough_sublist_le data
    (List.nil_sublist ((eventTimes data).filter (fun u => decide (u ≤ t))))
  simpa [kmSurv, survThrough] using h

theorem kmSurv_antitone (data : List TE) {t u : Int} (h : t ≤ u) :
    kmSurv data u ≤ kmSurv data t := by
  apply survThrough_sublist_le
  apply List.monotone_filter_right
  intro a ha
  simp only [decide_eq_true_eq] at ha ⊢
  omega

/-- Claim C2: for every multiset of time-to-event tuples with non-negative
durations, the Kaplan-Meier curve starts at survival estimate 1 at time 0 and
its survival estimates are monotonically non-increasing along the curve. -/
theorem km_curve_starts_one_nonincreasing (data : List TE)
    (_hpos : ∀ p ∈ data, (0:Int) ≤ p.1) :
    (kmCurve data).head? = some (0, 1) ∧
    (kmCurve data).Pairwise (fun a b => b.2 ≤ a.2) := by
  refine ⟨rfl, ?_⟩
  unfold kmCurve
  apply List.Pairwise.cons
  · intro b hb
    rcases List.mem_map.mp hb with ⟨t, _, rfl⟩
    exact kmSurv_le_one data t
  · rw [List.pairwise_map]
    have hs := List.sorted_insertionSort (fun a b : Int => a ≤ b)
      (((data.filter (fun p => p.2)).map Prod.fst).dedup)
    exact List.Pairwise.imp (fun hab => kmSurv_antitone data hab) hs

/-- Concrete instantiation of claim C2 at the input [(5, true)]. -/
theorem km_curve_starts_one_nonincreasing_witness :
    (∀ p ∈ ([((5:Int), true)] : List TE), (0:Int) ≤ p.1) ∧
    ((kmCurve [((5:Int), true)]).head? = some (0, 1) ∧
      (kmCurve [((5:Int), true)]).Pairwise (fun a b => b.2 ≤ a.2)) :=
  ⟨by decide, km_curve_starts_one_nonincreasing _ (by decide)⟩

/-! ## Claim C3: the cohort builder columns (src/app.py lines 27-34) -/

/-- Claim C3: for every row of the dataframe with a present transplant date,
each of the two derived tuples has its event flag true exactly when that
event date is non-null, and its duration equal to (event date if present,
else the censoring reference) minus the transplant date, in whole days; the
single `censura` argument threaded through `buildTuples` is the one
censoring reference of the run (computed once at line 27), shared by all
rows and both event types. -/
theorem cohort_builder_spec (censura : Int) (df : List Row) (r : Row)
    (hr : r ∈ df) (tx : Int) (htx : r.data_tx = some tx) :
    ((tempo_obito censura r, evento_obito r),
      (tempo_pe censura r, evento_pe r)) ∈ buildTuples censura df ∧
    (evento_obito r = true ↔ r.data_obito ≠ none) ∧
    tempo_obito censura r =
      some ((match r.data_obito with | some d => d | none => censura) - tx) ∧
    (evento_pe r = true ↔ r.data_pe ≠ none) ∧
    tempo_pe censura r =
      some ((match r.data_pe with | some d => d | none => censura) - tx) := by
  refine ⟨List.mem_map.mpr ⟨r, hr, rfl⟩, ?_, ?_, ?_, ?_⟩
  · simp [evento_obito, Option.isSome_iff_ne_none]
  · cases hob : r.data_obito <;> simp [tempo_obito, htx, hob, Option.getD]
  · simp [evento_pe, Option.isSome_iff_ne_none]
  · cases hpe : r.data_pe <;> simp [tempo_pe, htx, hpe, Option.getD]

/-- A concrete run of claim C3: one row, transplant at day 100, death at day
150, no graft loss, censoring reference at day 400. -/
theorem cohort_builder_spec_witness :
    (Row.mk (some 100) (some 150) none ∈ [Row.mk (some 100) (some 150) none]) ∧
    (Row.mk (some 100) (some 150) none).data_tx = some 100 ∧
    (((tempo_obito 400 (Row.mk (some 100) (some 150) none),
        evento_obito (Row.mk (some 100) (some 150) none)),
      (tempo_pe 400 (Row.mk (some 100) (some 150) none),
        evento_pe (Row.mk (some 100) (some 150) none))) ∈
        buildTuples 400 [Row.mk (some 100) (some 150) none] ∧
    (evento_obito (Row.mk (some 100) (some 150) none) = true ↔
      (Row.mk (some 100) (some 150) none).data_obito ≠ none) ∧
    tempo_obito 400 (Row.mk (some 100) (some 150) none) =
      some ((match (Row.mk (some 100) (some 150) none).data_obito with
              | some d => d | none => 400) - 100) ∧
    (evento_pe (Row.mk (some 100) (some 150) none) = true ↔
      (Row.mk (some 100) (some 150) none).data_pe ≠ none) ∧
    tempo_pe 400 (Row.mk (some 100) (some 150) none) =
      some ((match (Row.mk (some 100) (some 150) none).data_pe with
              | some d => d | none => 400) - 100)) :=
  ⟨by decide, by decide,
    cohort_builder_spec 400 [Row.mk (some 100) (some 150) none]
      (Row.mk (some 100) (some 150) none) (by decide) 100 (by decide)⟩

/-! ## Claim C4: negative durations are passed through, not flagged -/

/-- A record whose death date precedes its transplant date by 50 days. -/
def badRow : Row := Row.mk (some 100) (some 50) none

/-- Claim C4, failing input: the script has no InvalidRecord path at all.  On
a record with the event date 50 days before the transplant date it derives
the negative duration -50 and hands it directly to the estimator input
(lines 31 and 81/118), with no exclusion and no exclusion count. -/
theorem negative_duration_not_flagged :
    tempo_obito 200 badRow = some (-50) ∧
    fitInput_obito 200 [badRow] = [(some (-50), true)] := by
  decide

/-! ## Claim C5: the point-in-time query (src/app.py lines 63-71) -/

/-- A point of a fitted curve: the survival function and the confidence
interval bounds share one timeline in the fitted estimator, of which this is
one entry. -/
structure CurvePoint where
  t : Int
  surv : ℚ
  lo : ℚ
  hi : ℚ
deriving Repr, DecidableEq

/-- Round half to even, the rounding used by the Python `round` builtin
(modelled exactly on rationals). -/
def roundHalfEven (q : ℚ) : Int :=
  if q - ⌊q⌋ < 1/2 then ⌊q⌋
  else if (1:ℚ)/2 < q - ⌊q⌋ then ⌊q⌋ + 1
  else if ⌊q⌋ % 2 = 0 then ⌊q⌋ else ⌊q⌋ + 1

/-- Two-decimal rounding, as in `round(x, 2)` at lines 68-70. -/
def round2 (q : ℚ) : ℚ := (roundHalfEven (q * 100) : ℚ) / 100

/-- Line 64, `kmf.survival_function_at_times(dias)`: the fitted survival step
function looked up at `dias`, i.e. the value of the latest timeline entry at
or before `dias` (held constant past the last entry). -/
def surv_at (curve : List CurvePoint) (dias : Int) : Option ℚ :=
  ((curve.filter (fun p => decide (p.t ≤ dias))).getLast?).map CurvePoint.surv

/-- Lines 65-66, `ci.loc[ci.index <= dias].iloc[-1]`: the last confidence
interval row with index at or before `dias`. -/
def ci_at (curve : List CurvePoint) (dias : Int) : Option (ℚ × ℚ) :=
  ((curve.filter (fun p => decide (p.t ≤ dias))).getLast?).map (fun p => (p.lo, p.hi))

/-- Lines 63-71, `extrair_sobrevida_e_ic`: survival and CI bounds at `dias`,
as percentages rounded to two decimals. -/
def extrair_sobrevida_e_ic (curve : List CurvePoint) (dias : Int) :
    Option (ℚ × ℚ × ℚ) :=
  match surv_at curve dias, ci_at curve dias with
  | some s, some lh => some (round2 (100 * s), round2 (100 * lh.1), round2 (100 * lh.2))
  | _, _ => none

theorem getLast_isMax {l : List CurvePoint}
    (hs : l.Pairwise (fun a b => a.t < b.t)) (hne : l ≠ []) :
    ∃ p, l.getLast? = some p ∧ p ∈ l ∧ ∀ q ∈ l, q.t ≤ p.t := by
  induction l with
  | nil => exact absurd rfl hne
  | cons a tl ih =>
    cases tl with
    | nil =>
      refine ⟨a, rfl, List.mem_cons_self a [], ?_⟩
      intro q hq
      rcases List.mem_cons.mp hq with rfl | h
      · exact le_refl _
      · exact absurd h (List.not_mem_nil q)
    | cons b tl2 =>
      obtain ⟨p, hlast, hmem, hmax⟩ := ih (List.Pairwise.of_cons hs) (by simp)
      refine ⟨p, ?_, List.mem_cons_of_mem a hmem, ?_⟩
      · simpa [List.getLast?_cons_cons] using hlast
      · intro q hq
        rcases List.mem_cons.mp hq with rfl | h
        · exact le_of_lt (List.rel_of_pairwise_cons hs hmem)
        · exact hmax q h

/-- Claim C5: on a fitted curve (strictly increasing timeline containing time
0) and a target day count at least 0, the query returns the survival estimate
and the confidence interval of the curve point with the greatest time at or
before the target, the same point for both; and when the target lies at or
beyond the whole observed horizon it returns the last known values, the
policy applied consistently to the estimate and the CI. -/
theorem extrair_step_query (curve : List CurvePoint) (dias : Int)
    (hsort : curve.Pairwise (fun a b => a.t < b.t))
    (h0 : ∃ p ∈ curve, p.t = 0) (hd : 0 ≤ dias) :
    (∃ p, p ∈ curve ∧ p.t ≤ dias ∧ (∀ q ∈ curve, q.t ≤ dias → q.t ≤ p.t) ∧
      extrair_sobrevida_e_ic curve dias =
        some (round2 (100 * p.surv), round2 (100 * p.lo), round2 (100 * p.hi))) ∧
    ((∀ q ∈ curve, q.t ≤ dias) →
      extrair_sobrevida_e_ic curve dias = (curve.getLast?).map
        (fun p => (round2 (100 * p.surv), round2 (100 * p.lo), round2 (100 * p.hi)))) := by
  obtain ⟨p0, hp0mem, hp0t⟩ := h0
  have hFs : (curve.filter (fun p => decide (p.t ≤ dias))).Pairwise
      (fun a b => a.t < b.t) := List.Pairwise.sublist (List.filter_sublist curve) hsort
  have hp0F : p0 ∈ curve.filter (fun p => decide (p.t ≤ dias)) :=
    List.mem_filter.mpr ⟨hp0mem, by simp [hp0t]; omega⟩
  obtain ⟨p, hlast, hmem, hmax⟩ := getLast_isMax hFs (List.ne_nil_of_mem hp0F)
  have hpc : p ∈ curve := (List.mem_filter.mp hmem).1
  have hpt : p.t ≤ dias := by
    have := (List.mem_filter.mp hmem).2
    simpa using this
  constructor
  · refine ⟨p, hpc, hpt, ?_, ?_⟩
    · intro q hq hqd
      exact hmax q (List.mem_filter.mpr ⟨hq, by simpa using hqd⟩)
    · simp [extrair_sobrevida_e_ic, surv_at, ci_at, hlast]
  · intro hall
    have hFe : curve.filter (fun p => decide (p.t ≤ dias)) = curve :=
      List.filter_eq_self.mpr (fun q hq => by simpa using hall q hq)
    have hcl : curve.getLast? = some p := hFe ▸ hlast
    simp [extrair_sobrevida_e_ic, surv_at, ci_at, hlast, hcl]

/-- Concrete instantiation of claim C5: a two-point curve queried at day 12,
past the horizon. -/
theorem extrair_step_query_witness :
    (([CurvePoint.mk 0 1 1 1, CurvePoint.mk 10 (3/4) (1/2) (9/10)] : List CurvePoint).Pairwise
        (fun a b => a.t < b.t)) ∧
    (∃ p ∈ ([CurvePoint.mk 0 1 1 1, CurvePoint.mk 10 (3/4) (1/2) (9/10)] : List CurvePoint),
        p.t = 0) ∧ (0:Int) ≤ 12 ∧
    ((∃ p, p ∈ ([CurvePoint.mk 0 1 1 1, CurvePoint.mk 10 (3/4) (1/2) (9/10)] : List CurvePoint) ∧
        p.t ≤ 12 ∧
        (∀ q ∈ ([CurvePoint.mk 0 1 1 1, CurvePoint.mk 10 (3/4) (1/2) (9/10)] : List CurvePoint),
          q.t ≤ 12 → q.t ≤ p.t) ∧
        extrair_sobrevida_e_ic [CurvePoint.mk 0 1 1 1, CurvePoint.mk 10 (3/4) (1/2) (9/10)] 12 =
          some (round2 (100 * p.surv), round2 (100 * p.lo), round2 (100 * p.hi))) ∧
      ((∀ q ∈ ([CurvePoint.mk 0 1 1 1, CurvePoint.mk 10 (3/4) (1/2) (9/10)] : List CurvePoint),
          q.t ≤ 12) →
        extrair_sobrevida_e_ic [CurvePoint.mk 0 1 1 1, CurvePoint.mk 10 (3/4) (1/2) (9/10)] 12 =
          (([CurvePoint.mk 0 1 1 1, CurvePoint.mk 10 (3/4) (1/2) (9/10)] : List CurvePoint).getLast?).map
            (fun p => (round2 (100 * p.surv), round2 (100 * p.lo), round2 (100 * p.hi))))) :=
  ⟨by decide, by decide, by decide,
    extrair_step_query [CurvePoint.mk 0 1 1 1, CurvePoint.mk 10 (3/4) (1/2) (9/10)] 12
      (by decide) (by decide) (by decide)⟩

/-! ## Log-rank test, modelled from the spec (section 4.4) -/

/-- Modelled from the spec: observed-minus-expected events in group 1, summed
over the distinct event times of the pooled data (lifelines logrank_test
internals are not in the repository). -/
def OminusE (g1 g2 : List TE) : ℚ :=
  ((eventTimes (g1 ++ g2)).map (fun t =>
    (eventsAt g1 t : ℚ) -
      (eventsAt (g1 ++ g2) t : ℚ) * (atRisk g1 t : ℚ) / (atRisk (g1 ++ g2) t : ℚ))).sum

/-- Modelled from the spec: the summed hypergeometric variance
d(n-d)n1n2 / (n^2(n-1)); the stipulated 0 at n = 1 is realised by the
rational convention x/0 = 0. -/
def Vsum (g1 g2 : List TE) : ℚ :=
  ((eventTimes (g1 ++ g2)).map (fun t =>
    (eventsAt (g1 ++ g2) t : ℚ) *
      ((atRisk (g1 ++ g2) t : ℚ) - (eventsAt (g1 ++ g2) t : ℚ)) *
      (atRisk g1 t : ℚ) * (atRisk g2 t : ℚ) /
      ((atRisk (g1 ++ g2) t : ℚ) ^ 2 * ((atRisk (g1 ++ g2) t : ℚ) - 1)))).sum

/-- Modelled from the spec: the two-sample log-rank chi-square statistic. -/
def logrankStat (g1 g2 : List TE) : ℚ := (OminusE g1 g2) ^ 2 / Vsum g1 g2

theorem eventTimes_append_comm (g1 g2 : List TE) :
    eventTimes (g1 ++ g2) = eventTimes (g2 ++ g1) := by
  have hp : List.Perm (((g1 ++ g2).filter (fun p => p.2)).map Prod.fst).dedup
      (((g2 ++ g1).filter (fun p => p.2)).map Prod.fst).dedup :=
    ((List.perm_append_comm.filter _).map _).dedup
  exact List.eq_of_perm_of_sorted
    ((List.perm_insertionSort _ _).trans (hp.trans (List.perm_insertionSort _ _).symm))
    (List.sorted_insertionSort _ _) (List.sorted_insertionSort _ _)

theorem atRisk_append (g1 g2 : List TE) (t : Int) :
    atRisk (g1 ++ g2) t = atRisk g1 t + atRisk g2 t := by
  simp [atRisk, List.filter_append]

theorem eventsAt_append (g1 g2 : List TE) (t : Int) :
    eventsAt (g1 ++ g2) t = eventsAt g1 t + eventsAt g2 t := by
  simp [eventsAt, List.filter_append]

theorem atRisk_pos_of_event (l : List TE) {t : Int} (ht : t ∈ eventTimes l) :
    0 < atRisk l t := by
  have h1 : t ∈ ((l.filter (fun p => p.2)).map Prod.fst).dedup :=
    (List.perm_insertionSort _ _).mem_iff.mp ht
  obtain ⟨p, hp, hpt⟩ := List.mem_map.mp (List.mem_dedup.mp h1)
  have hpf : p ∈ l.filter (fun p => decide (t ≤ p.1)) :=
    List.mem_filter.mpr ⟨List.mem_of_mem_filter hp, by simp [hpt]⟩
  have hlen := List.length_pos.mpr (List.ne_nil_of_mem hpf)
  simpa [atRisk] using hlen

theorem sum_map_neg_of (l : List Int) (f g : Int → ℚ) (h : ∀ t ∈ l, g t = - f t) :
    (l.map g).sum = -((l.map f).sum) := by
  induction l with
  | nil => simp
  | cons a tl ih =>
    simp only [List.map_cons, List.sum_cons]
    rw [h a (List.mem_cons_self a tl), ih (fun t ht => h t (List.mem_cons_of_mem a ht))]
    ring

theorem OminusE_swap (g1 g2 : List TE) : OminusE g2 g1 = -(OminusE g1 g2) := by
  unfold OminusE
  rw [eventTimes_append_comm g2 g1]
  apply sum_map_neg_of
  intro t ht
  have hn : 0 < atRisk (g1 ++ g2) t := atRisk_pos_of_event _ ht
  rw [atRisk_append] at hn
  have hQ : (0:ℚ) < (atRisk g1 t : ℚ) + (atRisk g2 t : ℚ) := by exact_mod_cast hn
  have hne : ((atRisk g1 t : ℚ) + (atRisk g2 t : ℚ)) ≠ 0 := ne_of_gt hQ
  have hne2 : ((atRisk g2 t : ℚ) + (atRisk g1 t : ℚ)) ≠ 0 := by
    rw [add_comm]; exact hne
  rw [eventsAt_append g2 g1, atRisk_append g2 g1, eventsAt_append g1 g2, atRisk_append g1 g2]
  push_cast
  field_simp
  ring

theorem Vsum_swap (g1 g2 : List TE) : Vsum g2 g1 = Vsum g1 g2 := by
  unfold Vsum
  rw [eventTimes_append_comm g2 g1]
  refine congrArg List.sum (List.map_congr_left ?_)
  intro t _
  rw [eventsAt_append g2 g1, atRisk_append g2 g1, eventsAt_append g1 g2, atRisk_append g1 g2]
  push_cast
  ring

/-- Claim C6: for non-empty groups, swapping which tuple set is group 1
flips only the sign of observed-minus-expected, leaves the chi-square
statistic unchanged, and therefore yields an identical p-value (the p-value
being a fixed function of the statistic at one degree of freedom). -/
theorem logrank_swap (g1 g2 : List TE) (_h1 : g1 ≠ []) (_h2 : g2 ≠ []) :
    OminusE g2 g1 = -(OminusE g1 g2) ∧
    logrankStat g2 g1 = logrankStat g1 g2 ∧
    ∀ pv : ℚ → ℚ, pv (logrankStat g2 g1) = pv (logrankStat g1 g2) := by
  have hstat : logrankStat g2 g1 = logrankStat g1 g2 := by
    unfold logrankStat
    rw [OminusE_swap g1 g2, Vsum_swap g1 g2, neg_sq]
  exact ⟨OminusE_swap g1 g2, hstat, fun pv => congrArg pv hstat⟩

/-- Concrete instantiation of claim C6 at the groups [(1, true)] and
[(2, true)]. -/
theorem logrank_swap_witness :
    (([((1:Int), true)] : List TE) ≠ []) ∧ (([((2:Int), true)] : List TE) ≠ []) ∧
    (OminusE [((2:Int), true)] [((1:Int), true)] =
        -(OminusE [((1:Int), true)] [((2:Int), true)]) ∧
      logrankStat [((2:Int), true)] [((1:Int), true)] =
        logrankStat [((1:Int), true)] [((2:Int), true)] ∧
      ∀ pv : ℚ → ℚ, pv (logrankStat [((2:Int), true)] [((1:Int), true)]) =
        pv (logrankStat [((1:Int), true)] [((2:Int), true)])) :=
  ⟨by decide, by decide,
    logrank_swap [((1:Int), true)] [((2:Int), true)] (by decide) (by decide)⟩

/-! ## Claim C8: degenerate variance handling of the tester -/

/-- Modelled from the spec: the outcome taxonomy of the log-rank tester
(sections 4.4 and 7).  The repository delegates the test to lifelines, whose
source is absent, so the error contract is modelled from the spec text. -/
inductive LogRankOutcome where
  | insufficientData
  | degenerateVariance (pPolicy : ℚ)
  | statistic (chisq : ℚ)
deriving Repr, DecidableEq

/-- Modelled from the spec: the two-sample tester with its error conditions:
InsufficientData when a compared group is empty, DegenerateVariance carrying
the explicit policy p-value 1 when the summed variance is zero, and the
plain chi-square statistic otherwise. -/
def logrank_test_guarded (g1 g2 : List TE) : LogRankOutcome :=
  if g1.isEmpty || g2.isEmpty then .insufficientData
  else if Vsum g1 g2 = 0 then .degenerateVariance 1
  else .statistic (logrankStat g1 g2)

/-- Claim C8: a comparison of non-empty groups whose summed variance is zero
is tagged DegenerateVariance with the explicit policy p-value 1, and never
yields a numeric statistic manufactured by a division by zero. -/
theorem logrank_degenerate_variance (g1 g2 : List TE) (h1 : g1 ≠ []) (h2 : g2 ≠ [])
    (hv : Vsum g1 g2 = 0) :
    logrank_test_guarded g1 g2 = .degenerateVariance 1 ∧
    ∀ s : ℚ, logrank_test_guarded g1 g2 ≠ .statistic s := by
  have h1e : g1.isEmpty = false := by
    cases g1 with
    | nil => exact absurd rfl h1
    | cons a l => rfl
  have h2e : g2.isEmpty = false := by
    cases g2 with
    | nil => exact absurd rfl h2
    | cons a l => rfl
  constructor
  · simp [logrank_test_guarded, h1e, h2e, hv]
  · intro s
    simp [logrank_test_guarded, h1e, h2e, hv]

/-- Concrete instantiation of claim C8: two all-censored singleton groups, in
which no event discriminates and the variance sum is zero. -/
theorem logrank_degenerate_variance_witness :
    (([((5:Int), false)] : List TE) ≠ []) ∧ (([((7:Int), false)] : List TE) ≠ []) ∧
    Vsum [((5:Int), false)] [((7:Int), false)] = 0 ∧
    (logrank_test_guarded [((5:Int), false)] [((7:Int), false)] =
        LogRankOutcome.degenerateVariance 1 ∧
      ∀ s : ℚ, logrank_test_guarded [((5:Int), false)] [((7:Int), false)] ≠
        LogRankOutcome.statistic s) :=
  ⟨by decide, by decide, by rfl,
    logrank_degenerate_variance [((5:Int), false)] [((7:Int), false)]
      (by decide) (by decide) (by rfl)⟩

/-! ## Claims C7 and C10: pairwise year comparisons (src/app.py lines 158-184) -/

/-- The year-group selection `df[df["ano_tx"] == a]` (lines 162-163, 77, 98). -/
def grupo (yearOf : Int → Int) (df : List Row) (a : Int) : List Row :=
  df.filter (fun r => decide (ano_tx yearOf r = some a))

/-- Rows turned into the time-to-event tuples handed to the tester; a row
whose duration is NaT carries no tuple. -/
def toTE (tempo : Row → Option Int) (evento : Row → Bool) (rows : List Row) : List TE :=
  rows.filterMap (fun r => (tempo r).map (fun d => (d, evento r)))

/-- Modelled from the spec: the p-value of the two-sample test is a fixed
strictly decreasing transform (the chi-square survival function at one degree
of freedom) of the statistic; the transform is transcendental, so outcomes
are recorded through the statistic that determines the p-value. -/
def p_value_model (g1 g2 : List TE) : ℚ := logrankStat g1 g2

/-- Lines 161-169, `comparar_anos`: select the two year groups, return None
(the InsufficientData signal of spec section 7) when either group is empty,
and the test result otherwise. -/
def comparar_anos (yearOf : Int → Int) (df : List Row) (a1 a2 : Int)
    (tempo : Row → Option Int) (evento : Row → Bool) : Option ℚ :=
  let d1 := grupo yearOf df a1
  let d2 := grupo yearOf df a2
  if d1.isEmpty || d2.isEmpty then none
  else some (p_value_model (toTE tempo evento d1) (toTE tempo evento d2))

/-- Line 171: the fixed list of pairwise year comparisons. -/
def comparacoes : List (Int × Int) :=
  [(2022, 2023), (2022, 2024), (2022, 2025), (2023, 2024), (2023, 2025), (2024, 2025)]

/-- Four-decimal rounding, as in `round(p, 4)` at lines 180-181. -/
def round4 (q : ℚ) : ℚ := (roundHalfEven (q * 10000) : ℚ) / 10000

/-- A row of the pairwise comparison table (lines 178-182). -/
structure CompRow where
  a1 : Int
  a2 : Int
  p_obito : Option ℚ
  p_pe : Option ℚ
deriving Repr, DecidableEq

/-- Lines 174-182: one table row per fixed pair, with None p-values where the
comparison returned None. -/
def linhas_comp (yearOf : Int → Int) (censura : Int) (df : List Row) : List CompRow :=
  comparacoes.map (fun pr =>
    CompRow.mk pr.1 pr.2
      ((comparar_anos yearOf df pr.1 pr.2 (tempo_obito censura) evento_obito).map round4)
      ((comparar_anos yearOf df pr.1 pr.2 (tempo_pe censura) evento_pe).map round4))

/-- Claim C7: a requested comparison with an empty group returns None, the
InsufficientData signal, for both endpoints; and only that comparison is
skipped: every requested pair whose two groups are non-empty still gets a
table row carrying computed p-values. -/
theorem comparacao_insufficient_data (yearOf : Int → Int) (censura : Int)
    (df : List Row) (a1 a2 : Int)
    (hempty : grupo yearOf df a1 = [] ∨ grupo yearOf df a2 = []) :
    comparar_anos yearOf df a1 a2 (tempo_obito censura) evento_obito = none ∧
    comparar_anos yearOf df a1 a2 (tempo_pe censura) evento_pe = none ∧
    ∀ pr ∈ comparacoes, grupo yearOf df pr.1 ≠ [] → grupo yearOf df pr.2 ≠ [] →
      ∃ row ∈ linhas_comp yearOf censura df, row.a1 = pr.1 ∧ row.a2 = pr.2 ∧
        row.p_obito.isSome ∧ row.p_pe.isSome := by
  have hnone : ∀ tempo evento,
      comparar_anos yearOf df a1 a2 tempo evento = none := by
    intro tempo evento
    rcases hempty with h | h <;> simp [comparar_anos, h]
  refine ⟨hnone _ _, hnone _ _, ?_⟩
  intro pr hpr hne1 hne2
  have h1e : (grupo yearOf df pr.1).isEmpty = false := by
    cases hg : grupo yearOf df pr.1 with
    | nil => exact absurd hg hne1
    | cons x xs => rfl
  have h2e : (grupo yearOf df pr.2).isEmpty = false := by
    cases hg : grupo yearOf df pr.2 with
    | nil => exact absurd hg hne2
    | cons x xs => rfl
  refine ⟨CompRow.mk pr.1 pr.2
      ((comparar_anos yearOf df pr.1 pr.2 (tempo_obito censura) evento_obito).map round4)
      ((comparar_anos yearOf df pr.1 pr.2 (tempo_pe censura) evento_pe).map round4),
    List.mem_map.mpr ⟨pr, hpr, rfl⟩, rfl, rfl, ?_, ?_⟩ <;>
    simp [comparar_anos, h1e, h2e]

/-- A two-row dataset observing only the years 2022 and 2023. -/
def df0c7 : List Row := [Row.mk (some 2022) none none, Row.mk (some 2023) (some 2050) none]

/-- Concrete instantiation of claim C7: comparing 2022 against the absent
year 2025. -/
theorem comparacao_insufficient_data_witness :
    (grupo id df0c7 2022 = [] ∨ grupo id df0c7 2025 = []) ∧
    (comparar_anos id df0c7 2022 2025 (tempo_obito 2100) evento_obito = none ∧
     comparar_anos id df0c7 2022 2025 (tempo_pe 2100) evento_pe = none ∧
     ∀ pr ∈ comparacoes, grupo id df0c7 pr.1 ≠ [] → grupo id df0c7 pr.2 ≠ [] →
       ∃ row ∈ linhas_comp id 2100 df0c7, row.a1 = pr.1 ∧ row.a2 = pr.2 ∧
         row.p_obito.isSome ∧ row.p_pe.isSome) :=
  ⟨Or.inr (by decide),
    comparacao_insufficient_data id 2100 df0c7 2022 2025 (Or.inr (by decide))⟩

/-- The fixed year range of the pairwise table. -/
def yearRange : List Int := [2022, 2023, 2024, 2025]

/-- Claim C10: for every dataset the pairwise table consists of exactly the
six fixed year pairs in order; only years 2022 through 2025 are ever
pairwise compared; and a pair with an empty year group keeps its row, with
null p-values, instead of being dropped. -/
theorem tabela_pareada (yearOf : Int → Int) (censura : Int) (df : List Row) :
    (linhas_comp yearOf censura df).map (fun row => (row.a1, row.a2)) = comparacoes ∧
    (linhas_comp yearOf censura df).length = 6 ∧
    (∀ row ∈ linhas_comp yearOf censura df, row.a1 ∈ yearRange ∧ row.a2 ∈ yearRange) ∧
    (∀ row ∈ linhas_comp yearOf censura df,
      (grupo yearOf df row.a1 = [] ∨ grupo yearOf df row.a2 = []) →
        row.p_obito = none ∧ row.p_pe = none) := by
  refine ⟨?_, ?_, ?_, ?_⟩
  · simp [linhas_comp, comparacoes]
  · simp [linhas_comp, comparacoes]
  · intro row hrow
    rcases List.mem_map.mp hrow with ⟨pr, hpr, rfl⟩
    revert hpr
    simp only [comparacoes, List.mem_cons, List.not_mem_nil, or_false]
    rintro (rfl | rfl | rfl | rfl | rfl | rfl) <;> simp [yearRange]
  · intro row hrow hemp
    rcases List.mem_map.mp hrow with ⟨pr, hpr, rfl⟩
    rcases hemp with h | h <;>
      constructor <;> simp_all [comparar_anos]

/-- Concrete instantiation of claim C10 on the two-year dataset. -/
theorem tabela_pareada_witness :
    ((linhas_comp id 2100 df0c7).map (fun row => (row.a1, row.a2)) = comparacoes ∧
     (linhas_comp id 2100 df0c7).length = 6 ∧
     (∀ row ∈ linhas_comp id 2100 df0c7, row.a1 ∈ yearRange ∧ row.a2 ∈ yearRange) ∧
     (∀ row ∈ linhas_comp id 2100 df0c7,
       (grupo id df0c7 row.a1 = [] ∨ grupo id df0c7 row.a2 = []) →
         row.p_obito = none ∧ row.p_pe = none)) :=
  tabela_pareada id 2100 df0c7

/-! ## Claim C9: the cohort partitioner (src/app.py lines 58, 76-79) -/

/-- Line 58, `anos`: the sorted unique non-null transplant years. -/
def anos (yearOf : Int → Int) (df : List Row) : List Int :=
  List.insertionSort (fun a b => a ≤ b) ((df.filterMap (ano_tx yearOf)).dedup)

/-- Lines 76-79 (and likewise 97-100, 193-195): the per-year grouping loop,
pairing each year of `anos` with its row subset and skipping a year whose
subset is empty; this list is the entire output of the partitioning stage. -/
def partition (yearOf : Int → Int) (df : List Row) : List (Int × List Row) :=
  ((anos yearOf df).map (fun a => (a, grupo yearOf df a))).filter
    (fun pr => !pr.2.isEmpty)

theorem mem_anos_iff (yearOf : Int → Int) (df : List Row) (a : Int) :
    a ∈ anos yearOf df ↔ ∃ r ∈ df, ano_tx yearOf r = some a := by
  unfold anos
  rw [(List.perm_insertionSort (fun a b : Int => a ≤ b)
        ((df.filterMap (ano_tx yearOf)).dedup)).mem_iff,
    List.mem_dedup, List.mem_filterMap]

theorem grupo_ne_nil_of_mem_anos (yearOf : Int → Int) (df : List Row) {a : Int}
    (ha : a ∈ anos yearOf df) : grupo yearOf df a ≠ [] := by
  obtain ⟨r, hr, he⟩ := (mem_anos_iff yearOf df a).mp ha
  exact List.ne_nil_of_mem (List.mem_filter.mpr ⟨hr, by simp [he]⟩)

theorem partition_eq_map (yearOf : Int → Int) (df : List Row) :
    partition yearOf df = (anos yearOf df).map (fun a => (a, grupo yearOf df a)) := by
  unfold partition
  apply List.filter_eq_self.mpr
  intro pr hpr
  rcases List.mem_map.mp hpr with ⟨a, ha, rfl⟩
  have hne := grupo_ne_nil_of_mem_anos yearOf df ha
  rcases hg : grupo yearOf df a with _ | ⟨x, xs⟩
  · exact absurd hg hne
  · simp [hg]

/-- Claim C9 (amended): the output of the partitioning stage has exactly the
observed key values as its keys, each mapped to its non-empty subset of
matching rows; a key value with zero members yields no entry (no empty curve
is ever fitted); the omission is visible only as the absence of the key from
the mapping, there being no separate report. -/
theorem partition_exact (yearOf : Int → Int) (df : List Row) :
    (partition yearOf df).map Prod.fst = anos yearOf df ∧
    (∀ g ∈ partition yearOf df, g.2 ≠ [] ∧ ∀ r ∈ g.2, ano_tx yearOf r = some g.1) ∧
    (∀ a : Int, (∃ r ∈ df, ano_tx yearOf r = some a) ↔
      ∃ g ∈ partition yearOf df, g.1 = a) := by
  rw [partition_eq_map]
  refine ⟨by simp [Function.comp_def], ?_, ?_⟩
  · intro g hg
    rcases List.mem_map.mp hg with ⟨a, ha, rfl⟩
    refine ⟨grupo_ne_nil_of_mem_anos yearOf df ha, ?_⟩
    intro r hr
    have := (List.mem_filter.mp hr).2
    simpa using this
  · intro a
    rw [← mem_anos_iff yearOf df a]
    constructor
    · intro ha
      exact ⟨(a, grupo yearOf df a), List.mem_map.mpr ⟨a, ha, rfl⟩, rfl⟩
    · rintro ⟨g, hg, rfl⟩
      rcases List.mem_map.mp hg with ⟨b, hb, rfl⟩
      exact hb

/-- A dataset whose only observed transplant year is 2022. -/
def soleRow2022 : Row := Row.mk (some 2022) none none

/-- Claim C9, counterexample to the reporting clause: on a dataset observing
only the year 2022, the complete output of the partitioning stage is the
bare mapping [(2022, [row])]; the year 2023 has zero members and gets no
entry, and the output carries no omission report of any kind — the absence
of the key from the mapping is all the caller can see, refuting the claim
that the omission is reported to the caller. -/
theorem partition_no_omission_report :
    partition id [soleRow2022] = [(2022, [soleRow2022])] ∧
    ∀ g ∈ partition id [soleRow2022], g.1 ≠ 2023 := by
  decide

/-- Concrete instantiation of the amended claim C9 on the one-row dataset. -/
theorem partition_exact_witness :
    ((partition id [soleRow2022]).map Prod.fst = anos id [soleRow2022] ∧
     (∀ g ∈ partition id [soleRow2022], g.2 ≠ [] ∧
        ∀ r ∈ g.2, ano_tx id r = some g.1) ∧
     (∀ a : Int, (∃ r ∈ [soleRow2022], ano_tx id r = some a) ↔
        ∃ g ∈ partition id [soleRow2022], g.1 = a)) :=
  partition_exact id [soleRow2022]
